import Mathlib

/-!
Shallow embedding of the `SciPyCubicSpline` repository (`scipath/cubic_path2d.py`)
and verification of its natural-language specification.

The module converts an ordered sequence of 2D waypoints into an arc-length
parameterized cubic path, optionally deriving heading (yaw) and signed
curvature at fixed-step samples, gated by a bitmask `Profile`.

Modelling conventions:
* Machine floats are modelled by exact rationals (`ℚ`); the per-sample value
  lists model the numpy arrays of the source.
* External numerical primitives that the source merely calls
  (`scipy.interpolate.CubicSpline`, `numpy.linalg.norm`, `numpy.arctan2`,
  `x ** 1.5`) are abstracted as parameters of the embedding (`NumPrims`):
  the spec places the spline solver out of scope, and the Euclidean norm,
  `arctan2` and the 1.5-power take irrational values, so each theorem states
  the properties of these primitives that it needs as explicit hypotheses.
* Python exceptions are modelled by the `PyErr` inductive together with an
  exception-class hierarchy (`ExcKind`), and fallible code returns
  `Except PyErr _`.
-/

namespace Scipath

/-- A planar point or vector: one row of the `(N, 2)` float arrays. -/
abbrev Vec2 := ℚ × ℚ

/-- Exception values the module can produce.  `valueError` models the raw
`ValueError` raised by the external fit (and by numpy array truthiness);
`consecutiveDuplicateError` models the `ConsecutiveDuplicateError` class of
source lines 19–21, whose constructor argument models `raise ... from error`
exception chaining. -/
inductive PyErr where
  | valueError (message : String)
  | consecutiveDuplicateError (cause : PyErr)
deriving DecidableEq

/-- The Python exception classes relevant to the module. -/
inductive ExcKind where
  | excException
  | excValueError
  | excConsecutiveDuplicate
deriving DecidableEq

/-- Direct base class of each exception class: `ValueError` is a builtin
subclass of `Exception`, and source line 19 declares
`class ConsecutiveDuplicateError(Exception)`.  (`BaseException` and the
intermediate builtin bases of `ValueError` are beyond what the claims need;
the hierarchy modelled here has depth one.) -/
def ExcKind.parent : ExcKind → Option ExcKind
  | .excException => none
  | .excValueError => some .excException
  | .excConsecutiveDuplicate => some .excException

/-- Subclass test (reflexive-transitive closure of `parent`; the modelled
hierarchy has depth one, so one step suffices). -/
def ExcKind.isSubclassOf (a b : ExcKind) : Bool :=
  decide (a = b) || decide (a.parent = some b)

/-- The dynamic class of an exception value. -/
def PyErr.kindOf : PyErr → ExcKind
  | .valueError _ => .excValueError
  | .consecutiveDuplicateError _ => .excConsecutiveDuplicate

/-- The message carried by an exception.  `ConsecutiveDuplicateError.__init__`
always passes the fixed string of source line 21. -/
def PyErr.message : PyErr → String
  | .valueError m => m
  | .consecutiveDuplicateError _ => "Your input should not contain consecutive duplicate(s)!"

/-- The chained `__cause__` of an exception (`raise X from error`). -/
def PyErr.cause : PyErr → Option PyErr
  | .valueError _ => none
  | .consecutiveDuplicateError e => some e

/-- Whether an `except C:` clause for class `handler` catches exception `e`. -/
def PyErr.caughtBy (e : PyErr) (handler : ExcKind) : Bool :=
  e.kindOf.isSubclassOf handler

/-- The result record: `class CubicPath2D(NamedTuple)` of source lines 24–27.
`none` is the explicit absence marker (Python `None`). -/
structure CubicPath2D where
  path : Option (List Vec2)
  yaw : Option (List ℚ)
  curvature : Option (List ℚ)
deriving DecidableEq

/-! The `Profile(IntEnum)` of source lines 30–37, hex-nibble bitmask encoded. -/

namespace Profile

def PATH : ℕ := 0x001

def YAW : ℕ := 0x010

def CURVATURE : ℕ := 0x100

def NO_CURVATURE : ℕ := 0x011

def NO_YAW : ℕ := 0x101

def NO_PATH : ℕ := 0x110

def ALL : ℕ := 0x111

end Profile

/-- The three `profile & Profile.X` truthiness tests of source lines
120/123/128, one Boolean per output slot (path, yaw, curvature). -/
def profileFlags (p : ℕ) : Bool × Bool × Bool :=
  (decide (p &&& Profile.PATH ≠ 0), decide (p &&& Profile.YAW ≠ 0),
    decide (p &&& Profile.CURVATURE ≠ 0))

/-- Running cumulative sums with an accumulator; `cumsumFrom 0` models
`numpy.cumsum`. -/
def cumsumFrom (acc : ℚ) : List ℚ → List ℚ
  | [] => []
  | x :: xs => (acc + x) :: cumsumFrom (acc + x) xs

/-- `numpy.cumsum` on a 1-D array. -/
def cumsum (xs : List ℚ) : List ℚ :=
  cumsumFrom 0 xs

/-- `numpy.diff(points, axis=0)`: consecutive row differences
`points[i+1] - points[i]`. -/
def segDiffs (points : List Vec2) : List Vec2 :=
  List.zipWith (fun b a => (b.1 - a.1, b.2 - a.2)) points.tail points

/-- `numpy.diff(points, axis=1)` on an `(N, 2)` array: within each row, the
second coordinate minus the first, i.e. `y - x` per point. -/
def diffAxis1 (points : List Vec2) : List ℚ :=
  points.map (fun p => p.2 - p.1)

/-- Source line 108:
`norms = concatenate((zeros(1), cumsum(norm(diff(points, axis=0), axis=1))))`.
The Euclidean norm `numpy.linalg.norm` is an external primitive with
irrational values; it is abstracted as the argument `nrm`, and theorems state
the metric axioms they need about it as hypotheses. -/
def cumNorms (nrm : Vec2 → ℚ) (points : List Vec2) : List ℚ :=
  0 :: cumsum ((segDiffs points).map nrm)

/-- `numpy.arange(start, stop, step)`: the `⌈(stop - start) / step⌉` values
`start + i * step`. -/
def npArange (start stop step : ℚ) : List ℚ :=
  (List.range (Int.toNat ⌈(stop - start) / step⌉)).map (fun (i : ℕ) => start + (i : ℚ) * step)

/-- Strict increasingness of a 1-D array, the precondition the external fit
validates on its independent variable. -/
def strictlyIncreasing : List ℚ → Bool
  | [] => true
  | [_] => true
  | a :: b :: rest => decide (a < b) && strictlyIncreasing (b :: rest)

/-- The fitted curve (spec section 3): an opaque twice-differentiable map from
arc length to a plane point, with its first and second derivative maps
(`cubic_spline`, `cubic_spline.derivative(1)`, `cubic_spline.derivative(2)`). -/
structure Spline where
  eval : ℚ → Vec2
  d1 : ℚ → Vec2
  d2 : ℚ → Vec2

/-- The external numerical primitives the source calls, abstracted as
parameters of the embedding: the spline solver behind
`scipy.interpolate.CubicSpline`, `numpy.linalg.norm` on a 2-vector,
`numpy.arctan2`, and the float power `x ** 1.5`. -/
structure NumPrims where
  mkSpline : String → List ℚ → List Vec2 → Spline
  nrm : Vec2 → ℚ
  atan2 : ℚ → ℚ → ℚ
  pow15 : ℚ → ℚ

/-- The message of the raw fit `ValueError` (scipy's wording, backticks
omitted). -/
def splineFitErrorMessage : String := "x must be strictly increasing sequence."

/-- Modelled from the spec: `scipy.interpolate.CubicSpline` is the external
fitting primitive (spec sections 1, 4.2 place its internals out of scope).
It raises a `ValueError` when the independent variable is not strictly
increasing or fewer than two points are given; on success it returns the
fitted curve produced by the external solver `mk`. -/
def cubicSplineFit (mk : String → List ℚ → List Vec2 → Spline) (bc : String) (x : List ℚ)
    (points : List Vec2) : Except PyErr Spline :=
  if 2 ≤ points.length ∧ strictlyIncreasing x = true then .ok (mk bc x points)
  else .error (.valueError splineFitErrorMessage)

/-- numpy's message when `bool()` is taken of a multi-element array. -/
def truthAmbiguousMessage : String :=
  "The truth value of an array with more than one element is ambiguous. Use a.any() or a.all()"

/-- Python truthiness of an optional numpy 1-D array: `None` is falsy, an
empty array is falsy (numpy's legacy behaviour; the branch is unreachable for
the valid inputs the claims quantify over), a one-element array has the truth
value of its element, and `bool()` of a longer array raises `ValueError`. -/
def npTruthy : Option (List ℚ) → Except PyErr Bool
  | none => .ok false
  | some [] => .ok false
  | some [x] => .ok (decide (x ≠ 0))
  | some (_ :: _ :: _) => .error (.valueError truthAmbiguousMessage)

/-- Truthiness of the Python expression `a and b` (source line 130 uses it as
an `if` condition): `bool(a)` short-circuits, otherwise `bool(b)` decides. -/
def npAnd (a b : Option (List ℚ)) : Except PyErr Bool :=
  match npTruthy a with
  | .error e => .error e
  | .ok false => .ok false
  | .ok true => npTruthy b

/-- Source lines 114–118: on a raw fit error,
`if diff(points, axis=1).all(): raise` re-raises the original error, and
otherwise `raise ConsecutiveDuplicateError from error` reclassifies it with
the original chained as cause. -/
def duplicateGuard (points : List Vec2) (error : PyErr) : PyErr :=
  if (diffAxis1 points).all (fun d => decide (d ≠ 0)) then error
  else .consecutiveDuplicateError error

/-- The per-sample signed-curvature expression of source line 132,
`(dx * ddy - dy * ddx) / (dx * dx + dy * dy) ** 1.5`, written per sample. -/
def curvatureSample (P : NumPrims) (s : Spline) (t : ℚ) : ℚ :=
  ((s.d1 t).1 * (s.d2 t).2 - (s.d1 t).2 * (s.d2 t).1) /
    P.pow15 ((s.d1 t).1 * (s.d1 t).1 + (s.d1 t).2 * (s.d1 t).2)

/-- Source lines 120–134: the profile-gated evaluation of path, yaw and
curvature at the sampled arc lengths.  `dx`/`dy` model the variables
initialized to `None` on lines 106–107 and assigned in the YAW branch;
`.map Prod.fst` / `.map Prod.snd` model the transposed unpacking
`dx, dy = first_derivative(steps).T`; `npAnd dx dy` models the truthiness of
`dx and dy` on line 130. -/
def evalProfile (P : NumPrims) (cubic_spline : Spline) (steps : List ℚ) (profile : ℕ) :
    Except PyErr CubicPath2D :=
  let path : Option (List Vec2) :=
    if profile &&& Profile.PATH ≠ 0 then some (steps.map cubic_spline.eval) else none
  let dx : Option (List ℚ) :=
    if profile &&& Profile.YAW ≠ 0 then some ((steps.map cubic_spline.d1).map Prod.fst)
    else none
  let dy : Option (List ℚ) :=
    if profile &&& Profile.YAW ≠ 0 then some ((steps.map cubic_spline.d1).map Prod.snd)
    else none
  let yaw : Option (List ℚ) :=
    if profile &&& Profile.YAW ≠ 0 then
      some (List.zipWith P.atan2 ((steps.map cubic_spline.d1).map Prod.snd)
        ((steps.map cubic_spline.d1).map Prod.fst))
    else none
  if profile &&& Profile.CURVATURE ≠ 0 then
    match npAnd dx dy with
    | .error e => .error e
    | .ok reuse =>
      let ds : List ℚ × List ℚ :=
        if reuse then (dx.getD [], dy.getD [])
        else ((steps.map cubic_spline.d1).map Prod.fst, (steps.map cubic_spline.d1).map Prod.snd)
      let dds : List ℚ × List ℚ :=
        ((steps.map cubic_spline.d2).map Prod.fst, (steps.map cubic_spline.d2).map Prod.snd)
      let curvature : List ℚ :=
        List.zipWith (fun d dd => (d.1 * dd.2 - d.2 * dd.1) / P.pow15 (d.1 * d.1 + d.2 * d.2))
          (ds.1.zip ds.2) (dds.1.zip dds.2)
      .ok ⟨path, yaw, some curvature⟩
  else .ok ⟨path, yaw, none⟩

/-- The entry point, source lines 96–134.  The external primitives are the
parameter `P`; defaults mirror the Python signature (`0.05 = 1 / 20`). -/
def create_cubic_path_2d (P : NumPrims) (points : List Vec2) (profile : ℕ := Profile.ALL)
    (distance_step : ℚ := 1 / 20) (boundary_condition_type : String := "natural") :
    Except PyErr CubicPath2D :=
  let norms : List ℚ := cumNorms P.nrm points
  let steps : List ℚ := npArange 0 (norms.getLastD 0) distance_step
  match cubicSplineFit P.mkSpline boundary_condition_type norms points with
  | .error error => .error (duplicateGuard points error)
  | .ok cubic_spline => evalProfile P cubic_spline steps profile

/-- Spec-side predicate: some pair of immediately consecutive waypoints is
identical. -/
def hasConsecutiveDuplicate : List Vec2 → Bool
  | [] => false
  | [_] => false
  | a :: b :: rest => decide (a = b) || hasConsecutiveDuplicate (b :: rest)

/-- Taxicab norm on `ℚ × ℚ`: a computable positive-definite norm used to
instantiate the abstract `nrm` primitive in concrete witnesses. -/
def taxicab (v : Vec2) : ℚ := |v.1| + |v.2|

/-- A concrete straight-line spline used to instantiate the abstract external
solver in witnesses: `t ↦ (t, 0)` with its exact derivatives. -/
def lineSpline : Spline :=
  ⟨fun t => (t, 0), fun _ => (1, 0), fun _ => (0, 0)⟩

/-- A concrete instantiation of the external primitives, for witnesses. -/
def testPrims : NumPrims :=
  ⟨fun _ _ _ => lineSpline, taxicab, fun _ _ => 0, fun q => q⟩

/-- Modelled from the spec: when the external cubic-spline primitive is fit
to colinear waypoints, the fitted curve stays on their common line, so its
first and second derivative vectors at every parameter are scalar multiples
of the line's direction vector `u` (spec sections 4.2 and 8: the fit
interpolates the points; a natural cubic spline through colinear data is the
line itself). -/
def SplineAlong (s : Spline) (u : Vec2) : Prop :=
  ∀ t : ℚ, (∃ a : ℚ, s.d1 t = (a * u.1, a * u.2)) ∧ ∃ b : ℚ, s.d2 t = (b * u.1, b * u.2)

/-- A waypoint list with a consecutive duplicate pair but with every point
off the diagonal `y = x` (so `diff(points, axis=1)` has no zero entry). -/
def pointsDuplicateOffDiagonal : List Vec2 := [(0, 1), (2, 5), (2, 5), (3, 0)]

/-- A two-point horizontal segment of length 1 (so its arc length evaluates
identically under the Euclidean and taxicab norms). -/
def twoPointLine : List Vec2 := [(0, 0), (1, 0)]

/-- The repository test's input (`tests/test_exception.py` line 9): contains
the consecutive duplicate `(1, 1), (1, 1)`, and the points `(0, 0)` and
`(1, 1)` lie on the diagonal `y = x`. -/
def testInputPoints : List Vec2 := [(0, 0), (1, 1), (1, 1), (0, 1)]

/-- A three-point non-degenerate polyline used by the arc-length witness. -/
def threePointPath : List Vec2 := [(0, 0), (1, 0), (1, 2)]

/-- Real-valued model of the external primitive `numpy.arctan2 y x`: the
argument of the complex number `x + y * i`, whose range is `(-π, π]`. -/
noncomputable def arctan2 (y x : ℝ) : ℝ := Complex.arg ⟨x, y⟩

/-- The module-level state of `cubic_path2d.py`: the module defines no mutable
module-level bindings, so the state carries no data. -/
structure ModuleState where
deriving DecidableEq

/-- One invocation of the entry point, threaded through the (empty) module
state: the call reads and writes no shared state. -/
def invoke (state : ModuleState) (P : NumPrims) (points : List Vec2) (profile : ℕ)
    (distance_step : ℚ) (boundary_condition_type : String) :
    ModuleState × Except PyErr CubicPath2D :=
  (state, create_cubic_path_2d P points profile distance_step boundary_condition_type)

/-! Helper lemmas about the list primitives. -/

lemma zip_map_fst_snd_eq {α β : Type} (l : List (α × β)) :
    (l.map Prod.fst).zip (l.map Prod.snd) = l := by
  induction l with
  | nil => rfl
  | cons a t ih => simp [ih]

lemma zipWith_map_same {α β γ δ : Type} (f : α → β) (g : α → γ) (h : β → γ → δ)
    (l : List α) : List.zipWith h (l.map f) (l.map g) = l.map (fun x => h (f x) (g x)) := by
  induction l with
  | nil => rfl
  | cons a t ih => simp [ih]

lemma cumsumFrom_length (xs : List ℚ) : ∀ acc, (cumsumFrom acc xs).length = xs.length := by
  induction xs with
  | nil => intro acc; rfl
  | cons x t ih => intro acc; simp [cumsumFrom, ih]

lemma segDiffs_length (points : List Vec2) : (segDiffs points).length = points.length - 1 := by
  cases points with
  | nil => rfl
  | cons p t => simp [segDiffs]

lemma cumNorms_length (nrm : Vec2 → ℚ) (points : List Vec2) (h : points ≠ []) :
    (cumNorms nrm points).length = points.length := by
  have hp : 1 ≤ points.length := by
    cases points with
    | nil => exact absurd rfl h
    | cons p t => simp
  simp [cumNorms, cumsum, cumsumFrom_length, segDiffs_length]
  omega

lemma cumsumFrom_getD (xs : List ℚ) :
    ∀ (acc : ℚ) (i : ℕ), i < xs.length →
      (acc :: cumsumFrom acc xs).getD (i + 1) 0 =
        (acc :: cumsumFrom acc xs).getD i 0 + xs.getD i 0 := by
  induction xs with
  | nil => intro acc i h; simp at h
  | cons x t ih =>
    intro acc i h
    cases i with
    | zero => simp [cumsumFrom]
    | succ j =>
      have hj : j < t.length := by simpa using h
      have := ih (acc + x) j hj
      simpa [cumsumFrom] using this

lemma segDiffs_getD (points : List Vec2) :
    ∀ i : ℕ, i + 1 < points.length →
      (segDiffs points).getD i (0, 0) =
        ((points.getD (i + 1) (0, 0)).1 - (points.getD i (0, 0)).1,
          (points.getD (i + 1) (0, 0)).2 - (points.getD i (0, 0)).2) := by
  induction points with
  | nil => intro i h; simp at h
  | cons p t ih =>
    intro i h
    cases t with
    | nil => simp at h
    | cons q r =>
      cases i with
      | zero => simp [segDiffs]
      | succ j =>
        have hj : j + 1 < (q :: r).length := by simpa using h
        have := ih j hj
        simpa [segDiffs] using this

lemma chain_cumsumFrom (xs : List ℚ) :
    ∀ acc : ℚ, List.Chain' (· < ·) (acc :: cumsumFrom acc xs) ↔ ∀ x ∈ xs, 0 < x := by
  induction xs with
  | nil => intro acc; simp [cumsumFrom]
  | cons x t ih =>
    intro acc
    have := ih (acc + x)
    simp [cumsumFrom, this, lt_add_iff_pos_right]

lemma segDiffs_ne_zero_iff (points : List Vec2) :
    (∀ v ∈ segDiffs points, v ≠ (0, 0)) ↔ hasConsecutiveDuplicate points = false := by
  induction points with
  | nil => simp [segDiffs, hasConsecutiveDuplicate]
  | cons p t ih =>
    cases t with
    | nil => simp [segDiffs, hasConsecutiveDuplicate]
    | cons q r =>
      have hseg : segDiffs (p :: q :: r) = (q.1 - p.1, q.2 - p.2) :: segDiffs (q :: r) := by
        simp [segDiffs]
      have hpair : ((q.1 - p.1, q.2 - p.2) : Vec2) ≠ (0, 0) ↔ ¬ p = q := by
        constructor
        · intro hne he; apply hne; rw [he]; simp
        · intro hne he
          apply hne
          have h1 : q.1 - p.1 = 0 := congrArg Prod.fst he
          have h2 : q.2 - p.2 = 0 := congrArg Prod.snd he
          have e1 : p.1 = q.1 := by linarith
          have e2 : p.2 = q.2 := by linarith
          exact Prod.ext e1 e2
      rw [hseg]
      simp only [hasConsecutiveDuplicate, List.forall_mem_cons, Bool.or_eq_false_iff,
        decide_eq_false_iff_not, ih, hpair]

/-! Helper lemmas about the error paths of the external-primitive models. -/

lemma npTruthy_error {o : Option (List ℚ)} {e : PyErr} (h : npTruthy o = .error e) :
    e = .valueError truthAmbiguousMessage := by
  match o with
  | none => simp [npTruthy] at h
  | some [] => simp [npTruthy] at h
  | some [x] => simp [npTruthy] at h
  | some (a :: b :: t) =>
    simp only [npTruthy, Except.error.injEq] at h
    exact h.symm

lemma npAnd_error {a b : Option (List ℚ)} {e : PyErr} (h : npAnd a b = .error e) :
    e = .valueError truthAmbiguousMessage := by
  unfold npAnd at h
  cases ha : npTruthy a with
  | error e2 =>
    rw [ha] at h
    cases h
    exact npTruthy_error ha
  | ok v =>
    rw [ha] at h
    cases v with
    | false => cases h
    | true => exact npTruthy_error h

lemma cubicSplineFit_ok {mk : String → List ℚ → List Vec2 → Spline} {bc : String}
    {x : List ℚ} {points : List Vec2} {s : Spline}
    (h : cubicSplineFit mk bc x points = .ok s) : s = mk bc x points := by
  unfold cubicSplineFit at h
  split at h
  · cases h; rfl
  · cases h

lemma cubicSplineFit_error {mk : String → List ℚ → List Vec2 → Spline} {bc : String}
    {x : List ℚ} {points : List Vec2} {e : PyErr}
    (h : cubicSplineFit mk bc x points = .error e) : e = .valueError splineFitErrorMessage := by
  unfold cubicSplineFit at h
  split at h
  · cases h
  · cases h; rfl

lemma create_cubic_path_2d_eq (P : NumPrims) (points : List Vec2) (profile : ℕ)
    (distance_step : ℚ) (bc : String) :
    create_cubic_path_2d P points profile distance_step bc =
      match cubicSplineFit P.mkSpline bc (cumNorms P.nrm points) points with
      | .error error => .error (duplicateGuard points error)
      | .ok cubic_spline =>
        evalProfile P cubic_spline
          (npArange 0 ((cumNorms P.nrm points).getLastD 0) distance_step) profile := rfl

lemma yawList_eq (P : NumPrims) (s : Spline) (steps : List ℚ) :
    List.zipWith P.atan2 ((steps.map s.d1).map Prod.snd) ((steps.map s.d1).map Prod.fst) =
      steps.map (fun t => P.atan2 (s.d1 t).2 (s.d1 t).1) := by
  rw [List.map_map, List.map_map, zipWith_map_same]
  rfl

lemma curvList_eq (P : NumPrims) (s : Spline) (steps : List ℚ) :
    List.zipWith (fun d dd => (d.1 * dd.2 - d.2 * dd.1) / P.pow15 (d.1 * d.1 + d.2 * d.2))
      (((steps.map s.d1).map Prod.fst).zip ((steps.map s.d1).map Prod.snd))
      (((steps.map s.d2).map Prod.fst).zip ((steps.map s.d2).map Prod.snd)) =
      steps.map (curvatureSample P s) := by
  rw [zip_map_fst_snd_eq, zip_map_fst_snd_eq, zipWith_map_same]
  rfl

lemma yawList_eq2 (P : NumPrims) (s : Spline) (steps : List ℚ) :
    List.zipWith P.atan2 (List.map (Prod.snd ∘ s.d1) steps) (List.map (Prod.fst ∘ s.d1) steps) =
      steps.map (fun t => P.atan2 (s.d1 t).2 (s.d1 t).1) := by
  rw [zipWith_map_same]
  rfl

lemma curvList_eq2 (P : NumPrims) (s : Spline) (steps : List ℚ) :
    List.zipWith (fun d dd => (d.1 * dd.2 - d.2 * dd.1) / P.pow15 (d.1 * d.1 + d.2 * d.2))
      ((List.map (Prod.fst ∘ s.d1) steps).zip (List.map (Prod.snd ∘ s.d1) steps))
      ((List.map (Prod.fst ∘ s.d2) steps).zip (List.map (Prod.snd ∘ s.d2) steps)) =
      steps.map (curvatureSample P s) := by
  have h1 : List.map (Prod.fst ∘ s.d1) steps = (steps.map s.d1).map Prod.fst := by
    rw [List.map_map]
  have h2 : List.map (Prod.snd ∘ s.d1) steps = (steps.map s.d1).map Prod.snd := by
    rw [List.map_map]
  have h3 : List.map (Prod.fst ∘ s.d2) steps = (steps.map s.d2).map Prod.fst := by
    rw [List.map_map]
  have h4 : List.map (Prod.snd ∘ s.d2) steps = (steps.map s.d2).map Prod.snd := by
    rw [List.map_map]
  rw [h1, h2, h3, h4, curvList_eq]

/-- Canonical characterization of a successful evaluation: whichever way the
`dx and dy` reuse condition resolves, each requested slot of the result is the
per-sample map of the corresponding quantity over the sample arc lengths, and
each unrequested slot is `none`. -/
lemma evalProfile_ok (P : NumPrims) (s : Spline) (steps : List ℚ) (profile : ℕ)
    (r : CubicPath2D) (h : evalProfile P s steps profile = .ok r) :
    r.path = (if profile &&& Profile.PATH ≠ 0 then some (steps.map s.eval) else none) ∧
    r.yaw = (if profile &&& Profile.YAW ≠ 0 then
        some (steps.map (fun t => P.atan2 (s.d1 t).2 (s.d1 t).1)) else none) ∧
    r.curvature = (if profile &&& Profile.CURVATURE ≠ 0 then
        some (steps.map (curvatureSample P s)) else none) := by
  by_cases hC : profile &&& Profile.CURVATURE ≠ 0
  · by_cases hY : profile &&& Profile.YAW ≠ 0
    · rcases steps with _ | ⟨t1, _ | ⟨t2, rest⟩⟩
      · simp only [evalProfile, if_pos hC, if_pos hY, List.map, npAnd, npTruthy] at h
        injection h with h
        subst h
        simp [if_pos hC, if_pos hY, yawList_eq, yawList_eq2, curvList_eq, curvList_eq2]
      · by_cases ha : (s.d1 t1).1 = 0
        · simp [evalProfile, if_pos hC, if_pos hY, npAnd, npTruthy, ha] at h
          subst h
          simp [if_pos hC, if_pos hY, curvatureSample, ha]
        · by_cases hb : (s.d1 t1).2 = 0
          · simp [evalProfile, if_pos hC, if_pos hY, npAnd, npTruthy, ha, hb] at h
            subst h
            simp [if_pos hC, if_pos hY, curvatureSample, hb]
          · simp [evalProfile, if_pos hC, if_pos hY, npAnd, npTruthy, ha, hb] at h
            subst h
            simp [if_pos hC, if_pos hY, curvatureSample]
      · simp only [evalProfile, if_pos hC, if_pos hY, List.map, npAnd, npTruthy] at h
        cases h
    · simp only [evalProfile, if_pos hC, if_neg hY, npAnd, npTruthy] at h
      injection h with h
      subst h
      simp [if_pos hC, if_neg hY, curvList_eq, curvList_eq2]
  · by_cases hY : profile &&& Profile.YAW ≠ 0
    · simp only [evalProfile, if_neg hC, if_pos hY] at h
      injection h with h
      subst h
      simp [if_neg hC, if_pos hY, yawList_eq, yawList_eq2]
    · simp only [evalProfile, if_neg hC, if_neg hY] at h
      injection h with h
      subst h
      simp [if_neg hC, if_neg hY]

lemma evalProfile_error (P : NumPrims) (s : Spline) (steps : List ℚ) (profile : ℕ)
    (e : PyErr) (h : evalProfile P s steps profile = .error e) :
    e = .valueError truthAmbiguousMessage := by
  simp only [evalProfile] at h
  split at h
  · split at h
    · next heq =>
      injection h with h
      subst h
      exact npAnd_error heq
    · cases h
  · cases h

/-! Claim theorems. -/

/-- C10: the three base flags `PATH = 0x001`, `YAW = 0x010`,
`CURVATURE = 0x100` are pairwise bitwise-disjoint; the four composite enum
values are exactly the bitwise ORs of their named flags; and for each of the
7 profile values, the three bitwise-AND tests that gate the path, yaw and
curvature outputs are true exactly for the flags named in that profile. -/
theorem c10_profile_bitmask :
    (Profile.PATH &&& Profile.YAW = 0 ∧ Profile.PATH &&& Profile.CURVATURE = 0 ∧
      Profile.YAW &&& Profile.CURVATURE = 0) ∧
    (Profile.NO_CURVATURE = Profile.PATH ||| Profile.YAW ∧
      Profile.NO_YAW = Profile.PATH ||| Profile.CURVATURE ∧
      Profile.NO_PATH = Profile.YAW ||| Profile.CURVATURE ∧
      Profile.ALL = Profile.PATH ||| Profile.YAW ||| Profile.CURVATURE) ∧
    (profileFlags Profile.PATH = (true, false, false) ∧
      profileFlags Profile.YAW = (false, true, false) ∧
      profileFlags Profile.CURVATURE = (false, false, true) ∧
      profileFlags Profile.NO_CURVATURE = (true, true, false) ∧
      profileFlags Profile.NO_YAW = (true, false, true) ∧
      profileFlags Profile.NO_PATH = (false, true, true) ∧
      profileFlags Profile.ALL = (true, true, true)) := by
  decide

/-- C8: the entry point is deterministic.  The module keeps no module-level
mutable state (`ModuleState` is empty because `cubic_path2d.py` declares no
mutable module bindings), so an invocation threaded through any two states
returns the same output, and leaves the state untouched: the output is a
function of the four arguments (and of the fixed external primitives) only. -/
theorem c8_deterministic_invocation (state other : ModuleState) (P : NumPrims)
    (points : List Vec2) (profile : ℕ) (distance_step : ℚ) (boundary_condition_type : String) :
    (invoke state P points profile distance_step boundary_condition_type).2 =
      (invoke other P points profile distance_step boundary_condition_type).2 ∧
    (invoke state P points profile distance_step boundary_condition_type).1 = state :=
  ⟨rfl, rfl⟩

/-- C3: whenever the entry point returns a result record, each of the three
slots (path, yaw, curvature) is present (`some _`) if and only if the
corresponding flag is set in the profile — unrequested slots are the explicit
absence marker `none`, never a zero-filled or empty array — and every present
slot has exactly as many entries as there are sample arc lengths, aligned
index-for-index with them (path entries are 2-vectors, yaw and curvature
entries scalars, by the slot types). -/
theorem c3_result_slots_match_profile (P : NumPrims) (points : List Vec2) (profile : ℕ)
    (distance_step : ℚ) (bc : String) (r : CubicPath2D)
    (hok : create_cubic_path_2d P points profile distance_step bc = .ok r) :
    ((r.path ≠ none ↔ profile &&& Profile.PATH ≠ 0) ∧
      (r.yaw ≠ none ↔ profile &&& Profile.YAW ≠ 0) ∧
      (r.curvature ≠ none ↔ profile &&& Profile.CURVATURE ≠ 0)) ∧
    ((∀ l, r.path = some l →
        l.length = (npArange 0 ((cumNorms P.nrm points).getLastD 0) distance_step).length) ∧
      (∀ l, r.yaw = some l →
        l.length = (npArange 0 ((cumNorms P.nrm points).getLastD 0) distance_step).length) ∧
      (∀ l, r.curvature = some l →
        l.length = (npArange 0 ((cumNorms P.nrm points).getLastD 0) distance_step).length)) := by
  rw [create_cubic_path_2d_eq] at hok
  cases hfit : cubicSplineFit P.mkSpline bc (cumNorms P.nrm points) points with
  | error e => rw [hfit] at hok; cases hok
  | ok s =>
    rw [hfit] at hok
    obtain ⟨hp, hy, hc⟩ := evalProfile_ok P s _ profile r hok
    refine ⟨⟨?_, ?_, ?_⟩, ?_, ?_, ?_⟩
    · rw [hp]
      by_cases hP : profile &&& Profile.PATH ≠ 0 <;> simp [hP]
    · rw [hy]
      by_cases hY : profile &&& Profile.YAW ≠ 0 <;> simp [hY]
    · rw [hc]
      by_cases hC : profile &&& Profile.CURVATURE ≠ 0 <;> simp [hC]
    · intro l hl
      rw [hp] at hl
      by_cases hP : profile &&& Profile.PATH ≠ 0
      · rw [if_pos hP] at hl
        injection hl with hl
        rw [← hl, List.length_map]
      · rw [if_neg hP] at hl
        cases hl
    · intro l hl
      rw [hy] at hl
      by_cases hY : profile &&& Profile.YAW ≠ 0
      · rw [if_pos hY] at hl
        injection hl with hl
        rw [← hl, List.length_map]
      · rw [if_neg hY] at hl
        cases hl
    · intro l hl
      rw [hc] at hl
      by_cases hC : profile &&& Profile.CURVATURE ≠ 0
      · rw [if_pos hC] at hl
        injection hl with hl
        rw [← hl, List.length_map]
      · rw [if_neg hC] at hl
        cases hl

/-- C6: whenever the entry point returns a curvature array, it is exactly the
per-sample map of `(dx * ddy - dy * ddx) / (dx * dx + dy * dy) ** 1.5` over
the sample arc lengths, where `(dx, dy)` and `(ddx, ddy)` are the fitted
curve's first and second derivatives at the sample (this is what the code
computes in both branches of the `dx and dy` reuse condition); consequently,
when the fitted curve runs along a fixed direction `u` — as the external
spline does for colinear non-duplicate waypoints — every curvature sample is
exactly 0 (the hypotheses that the first derivative never vanishes and that
the power primitive is nonzero on positive inputs delimit the regime in which
the floating-point division is well defined). -/
theorem c6_curvature_formula_and_collinear (P : NumPrims) (points : List Vec2) (profile : ℕ)
    (distance_step : ℚ) (bc : String) (r : CubicPath2D) (c : List ℚ)
    (hok : create_cubic_path_2d P points profile distance_step bc = .ok r)
    (hc : r.curvature = some c) :
    c = (npArange 0 ((cumNorms P.nrm points).getLastD 0) distance_step).map
        (curvatureSample P (P.mkSpline bc (cumNorms P.nrm points) points)) ∧
    (∀ u : Vec2, SplineAlong (P.mkSpline bc (cumNorms P.nrm points) points) u →
      (∀ t : ℚ, (P.mkSpline bc (cumNorms P.nrm points) points).d1 t ≠ (0, 0)) →
      (∀ q : ℚ, 0 < q → P.pow15 q ≠ 0) → ∀ x ∈ c, x = 0) := by
  rw [create_cubic_path_2d_eq] at hok
  cases hfit : cubicSplineFit P.mkSpline bc (cumNorms P.nrm points) points with
  | error e => rw [hfit] at hok; cases hok
  | ok s =>
    rw [hfit] at hok
    have hs : s = P.mkSpline bc (cumNorms P.nrm points) points := cubicSplineFit_ok hfit
    obtain ⟨hp, hy, hcv⟩ := evalProfile_ok P s _ profile r hok
    rw [hc] at hcv
    by_cases hC : profile &&& Profile.CURVATURE ≠ 0
    · rw [if_pos hC] at hcv
      injection hcv with hcv
      subst hs
      constructor
      · exact hcv
      · intro u halong hd1 hpow x hx
        rw [hcv] at hx
        obtain ⟨t, _, hxt⟩ := List.mem_map.mp hx
        obtain ⟨⟨a, h1⟩, ⟨b, h2⟩⟩ := halong t
        rw [← hxt]
        unfold curvatureSample
        rw [h1, h2]
        simp only []
        rw [show a * u.1 * (b * u.2) - a * u.2 * (b * u.1) = 0 from by ring, zero_div]
    · rw [if_neg hC] at hcv
      cases hcv

/-- C7: whenever the entry point returns a yaw array, it is exactly the
per-sample map of `atan2 dy dx` of the fitted curve's first derivative over
the sample arc lengths (source line 126), and — the range property of the
external `numpy.arctan2` primitive, stated against its real-valued model
`arctan2` — every value `atan2` can produce lies in the half-open interval
`(-π, π]`. -/
theorem c7_yaw_formula_and_range (P : NumPrims) (points : List Vec2) (profile : ℕ)
    (distance_step : ℚ) (bc : String) (r : CubicPath2D) (y : List ℚ)
    (hok : create_cubic_path_2d P points profile distance_step bc = .ok r)
    (hy : r.yaw = some y) :
    y = (npArange 0 ((cumNorms P.nrm points).getLastD 0) distance_step).map
        (fun t => P.atan2 ((P.mkSpline bc (cumNorms P.nrm points) points).d1 t).2
          ((P.mkSpline bc (cumNorms P.nrm points) points).d1 t).1) ∧
    ∀ yv xv : ℝ, arctan2 yv xv ∈ Set.Ioc (-Real.pi) Real.pi := by
  rw [create_cubic_path_2d_eq] at hok
  cases hfit : cubicSplineFit P.mkSpline bc (cumNorms P.nrm points) points with
  | error e => rw [hfit] at hok; cases hok
  | ok s =>
    rw [hfit] at hok
    have hs : s = P.mkSpline bc (cumNorms P.nrm points) points := cubicSplineFit_ok hfit
    obtain ⟨hp, hyaw, hcv⟩ := evalProfile_ok P s _ profile r hok
    rw [hy] at hyaw
    by_cases hY : profile &&& Profile.YAW ≠ 0
    · rw [if_pos hY] at hyaw
      injection hyaw with hyaw
      subst hs
      exact ⟨hyaw, fun yv xv => Complex.arg_mem_Ioc _⟩
    · rw [if_neg hY] at hyaw
      cases hyaw

/-- C9: `ConsecutiveDuplicateError` is a direct subclass of `Exception` and
not a subclass of `ValueError`, so a handler catching only `ValueError` does
not catch it; it always carries the fixed message of source line 21; and
whenever the entry point raises it, the original fit `ValueError` is chained
as its cause. -/
theorem c9_duplicate_error_identity (P : NumPrims) (points : List Vec2) (profile : ℕ)
    (distance_step : ℚ) (bc : String) (err : PyErr)
    (herr : create_cubic_path_2d P points profile distance_step bc = .error err)
    (hkind : err.kindOf = .excConsecutiveDuplicate) :
    ExcKind.excConsecutiveDuplicate.parent = some .excException ∧
    ExcKind.excConsecutiveDuplicate.isSubclassOf .excValueError = false ∧
    err.caughtBy .excException = true ∧
    err.caughtBy .excValueError = false ∧
    err.message = "Your input should not contain consecutive duplicate(s)!" ∧
    ∃ e, err.cause = some e ∧ e.kindOf = .excValueError ∧
      e = .valueError splineFitErrorMessage := by
  obtain ⟨e0, rfl⟩ : ∃ e0, err = .consecutiveDuplicateError e0 := by
    cases err with
    | valueError m => simp [PyErr.kindOf] at hkind
    | consecutiveDuplicateError e0 => exact ⟨e0, rfl⟩
  refine ⟨by decide, by decide, rfl, rfl, rfl, ?_⟩
  rw [create_cubic_path_2d_eq] at herr
  cases hfit : cubicSplineFit P.mkSpline bc (cumNorms P.nrm points) points with
  | ok s =>
    rw [hfit] at herr
    have := evalProfile_error P s _ profile _ herr
    cases this
  | error e =>
    rw [hfit] at herr
    have hfe : e = .valueError splineFitErrorMessage := cubicSplineFit_error hfit
    injection herr with herr
    unfold duplicateGuard at herr
    split at herr
    · rw [hfe] at herr
      cases herr
    · injection herr with herr
      exact ⟨e0, rfl, by rw [← herr, hfe]; rfl, by rw [← herr, hfe]⟩

lemma getD_map_nrm (f : Vec2 → ℚ) (l : List Vec2) :
    ∀ i, i < l.length → (l.map f).getD i 0 = f (l.getD i (0, 0)) := by
  induction l with
  | nil => intro i h; simp at h
  | cons v t ih =>
    intro i h
    cases i with
    | zero => simp
    | succ j =>
      have hj : j < t.length := by simpa using h
      simpa using ih j hj

/-- C4: the sample sequence `arange(0, total, step)` (source line 109) is the
half-open range `0, step, 2 * step, ...` over `[0, total)`: an index is in
range exactly when its sample `i * step` is strictly below the total arc
length (so the sample count is the number of step-sized increments strictly
less than the total), the `i`-th sample equals `i * step`, every sample is
strictly less than the total, and a total of 0 yields an empty sample
sequence. -/
theorem c4_sample_range_halfopen (total step : ℚ) (hstep : 0 < step) :
    (∀ i : ℕ, i < (npArange 0 total step).length ↔ (i : ℚ) * step < total) ∧
    (∀ (i : ℕ) (h : i < (npArange 0 total step).length),
      (npArange 0 total step).get ⟨i, h⟩ = (i : ℚ) * step) ∧
    (∀ s ∈ npArange 0 total step, s < total) ∧
    (total = 0 → npArange 0 total step = []) := by
  have hlen : (npArange 0 total step).length = Int.toNat ⌈(total - 0) / step⌉ := by
    simp only [npArange, List.length_map, List.length_range]
  have key : ∀ i : ℕ, i < (npArange 0 total step).length ↔ (i : ℚ) * step < total := by
    intro i
    rw [hlen, Int.lt_toNat, Int.lt_ceil, sub_zero, lt_div_iff₀ hstep]
    norm_cast
  have hget : ∀ (i : ℕ) (h : i < (npArange 0 total step).length),
      (npArange 0 total step).get ⟨i, h⟩ = (i : ℚ) * step := by
    intro i h
    simp only [npArange, List.get_eq_getElem, List.getElem_map, List.getElem_range]
    rw [zero_add]
  refine ⟨key, hget, ?_, ?_⟩
  · intro s hs
    simp only [npArange, List.mem_map, List.mem_range] at hs
    obtain ⟨i, hi, rfl⟩ := hs
    have hi2 : i < (npArange 0 total step).length := by rw [hlen]; exact hi
    have h3 := (key i).mp hi2
    rw [zero_add]
    exact h3
  · intro h0
    subst h0
    have hc : ⌈((0 : ℚ) - 0) / step⌉ = 0 := by rw [sub_zero, zero_div, Int.ceil_zero]
    simp only [npArange, hc, Int.toNat_zero, List.range_zero, List.map_nil]

/-- C5: for a nonempty waypoint sequence, the arc-length array of source line
108 has the same length as the input, starts at 0, satisfies the running-sum
recurrence `array[i+1] = array[i] + nrm(points[i+1] - points[i])` for the
norm primitive `nrm` (the external Euclidean norm), and — for any `nrm`
satisfying the nonnegativity and definiteness axioms of the Euclidean norm —
is strictly increasing exactly when no two consecutive waypoints are
identical. -/
theorem c5_arc_length_array (nrm : Vec2 → ℚ) (points : List Vec2) (hne : points ≠ [])
    (hnn : ∀ v : Vec2, 0 ≤ nrm v) (hzero : ∀ v : Vec2, nrm v = 0 ↔ v = (0, 0)) :
    (cumNorms nrm points).length = points.length ∧
    (cumNorms nrm points).getD 0 0 = 0 ∧
    (∀ i : ℕ, i + 1 < points.length →
      (cumNorms nrm points).getD (i + 1) 0 =
        (cumNorms nrm points).getD i 0 +
          nrm ((points.getD (i + 1) (0, 0)).1 - (points.getD i (0, 0)).1,
            (points.getD (i + 1) (0, 0)).2 - (points.getD i (0, 0)).2)) ∧
    (List.Chain' (· < ·) (cumNorms nrm points) ↔ hasConsecutiveDuplicate points = false) := by
  refine ⟨cumNorms_length nrm points hne, rfl, ?_, ?_⟩
  · intro i hi
    have hdlen : i < ((segDiffs points).map nrm).length := by
      rw [List.length_map, segDiffs_length]
      omega
    have hrec := cumsumFrom_getD ((segDiffs points).map nrm) 0 i hdlen
    have hmap := getD_map_nrm nrm (segDiffs points) i (by rw [← List.length_map]; exact hdlen)
    have hseg := segDiffs_getD points i hi
    calc (cumNorms nrm points).getD (i + 1) 0
        = (cumNorms nrm points).getD i 0 + ((segDiffs points).map nrm).getD i 0 := hrec
      _ = (cumNorms nrm points).getD i 0 + nrm ((segDiffs points).getD i (0, 0)) := by
          rw [hmap]
      _ = _ := by rw [hseg]
  · have hchain : List.Chain' (· < ·) (cumNorms nrm points) ↔
        ∀ x ∈ (segDiffs points).map nrm, 0 < x :=
      chain_cumsumFrom ((segDiffs points).map nrm) 0
    have hpos : (∀ x ∈ (segDiffs points).map nrm, 0 < x) ↔
        ∀ v ∈ segDiffs points, v ≠ (0, 0) := by
      simp only [List.mem_map, forall_exists_index, and_imp]
      constructor
      · intro h v hv he
        have h0 := h (nrm v) v hv rfl
        rw [(hzero v).mpr he] at h0
        exact lt_irrefl 0 h0
      · intro h x v hv hx
        have hne0 : nrm v ≠ 0 := fun h0 => h v hv ((hzero v).mp h0)
        rw [← hx]
        exact lt_of_le_of_ne (hnn v) (Ne.symm hne0)
    rw [hchain, hpos, segDiffs_ne_zero_iff]

/-- C1 (refuting the claimed iff, for any norm primitive that vanishes on the
zero vector — as the Euclidean norm does): the input
`[(0, 1), (2, 5), (2, 5), (3, 0)]` contains a consecutive duplicate pair, so
the fit fails, but because the guard on source line 115 tests
`diff(points, axis=1)` (the per-point difference `y - x`) instead of the
consecutive-point difference, and every point here has `y ≠ x`, the function
re-raises the raw fit `ValueError` instead of raising
`ConsecutiveDuplicateError`. -/
theorem c1_duplicate_guard_reraises_on_duplicate (P : NumPrims) (h0 : P.nrm (0, 0) = 0) :
    hasConsecutiveDuplicate pointsDuplicateOffDiagonal = true ∧
    create_cubic_path_2d P pointsDuplicateOffDiagonal Profile.ALL (1 / 20) "natural" =
      .error (.valueError splineFitErrorMessage) := by
  constructor
  · simp [hasConsecutiveDuplicate, pointsDuplicateOffDiagonal]
  · have hseg : segDiffs pointsDuplicateOffDiagonal = [(2, 4), (0, 0), (1, -5)] := by
      norm_num [segDiffs, pointsDuplicateOffDiagonal]
    have hnorms : cumNorms P.nrm pointsDuplicateOffDiagonal =
        [0, 0 + P.nrm (2, 4), 0 + P.nrm (2, 4) + 0, 0 + P.nrm (2, 4) + 0 + P.nrm (1, -5)] := by
      show (0 : ℚ) :: cumsum ((segDiffs pointsDuplicateOffDiagonal).map P.nrm) = _
      rw [hseg]
      show (0 : ℚ) :: cumsum [P.nrm (2, 4), P.nrm (0, 0), P.nrm (1, -5)] = _
      rw [h0]
      rfl
    have hmono : strictlyIncreasing (cumNorms P.nrm pointsDuplicateOffDiagonal) = false := by
      rw [hnorms]
      simp [strictlyIncreasing]
    have hfit : cubicSplineFit P.mkSpline "natural"
        (cumNorms P.nrm pointsDuplicateOffDiagonal) pointsDuplicateOffDiagonal =
        .error (.valueError splineFitErrorMessage) := by
      have hcond : ¬ (2 ≤ pointsDuplicateOffDiagonal.length ∧
          strictlyIncreasing (cumNorms P.nrm pointsDuplicateOffDiagonal) = true) := by
        rw [hmono]
        simp
      unfold cubicSplineFit
      rw [if_neg hcond]
    have hguard : duplicateGuard pointsDuplicateOffDiagonal
        (.valueError splineFitErrorMessage) = .valueError splineFitErrorMessage := by
      have hall : (diffAxis1 pointsDuplicateOffDiagonal).all (fun d => decide (d ≠ 0)) =
          true := by
        norm_num [diffAxis1, pointsDuplicateOffDiagonal]
      simp only [duplicateGuard, hall, if_true]
    rw [create_cubic_path_2d_eq, hfit]
    simp only [hguard]

/-- C2 (refuting the claim, for any norm primitive that assigns length 1 to
the unit segment — as the Euclidean norm does): on the valid two-point input
`[(0, 0), (1, 0)]` with profile ALL and `distance_step = 1/2` there are two
samples, so the YAW branch binds `dx`, `dy` to two-element arrays, and the
reuse condition `dx and dy` on source line 130 takes `bool()` of a
multi-element numpy array, which raises the ambiguous-truth-value
`ValueError` instead of completing and reusing the first derivative. -/
theorem c2_truthiness_crash_on_reuse (P : NumPrims) (h1 : P.nrm (1, 0) = 1) :
    create_cubic_path_2d P twoPointLine Profile.ALL (1 / 2) "natural" =
      .error (.valueError truthAmbiguousMessage) := by
  have hseg : segDiffs twoPointLine = [(1, 0)] := by
    norm_num [segDiffs, twoPointLine]
  have hnorms : cumNorms P.nrm twoPointLine = [0, 1] := by
    show (0 : ℚ) :: cumsum ((segDiffs twoPointLine).map P.nrm) = _
    rw [hseg]
    show (0 : ℚ) :: cumsum [P.nrm (1, 0)] = _
    rw [h1]
    simp [cumsum, cumsumFrom]
  have hmono : strictlyIncreasing ([0, 1] : List ℚ) = true := by
    norm_num [strictlyIncreasing]
  have hfit : cubicSplineFit P.mkSpline "natural" (cumNorms P.nrm twoPointLine) twoPointLine =
      .ok (P.mkSpline "natural" (cumNorms P.nrm twoPointLine) twoPointLine) := by
    have hcond : 2 ≤ twoPointLine.length ∧
        strictlyIncreasing (cumNorms P.nrm twoPointLine) = true := by
      constructor
      · norm_num [twoPointLine]
      · rw [hnorms]
        exact hmono
    unfold cubicSplineFit
    rw [if_pos hcond]
  have hlast : (cumNorms P.nrm twoPointLine).getLastD 0 = 1 := by
    rw [hnorms]
    rfl
  have hsteps : npArange 0 1 (1 / 2) = [0, 1 / 2] := by
    have hc : Int.toNat ⌈((1 : ℚ) - 0) / (1 / 2)⌉ = 2 := by
      rw [show ⌈((1 : ℚ) - 0) / (1 / 2)⌉ = 2 from by norm_num]
      rfl
    simp only [npArange, hc]
    rw [show List.range 2 = [0, 1] from rfl]
    simp only [List.map]
    norm_num
  have heval : ∀ s : Spline, evalProfile P s [0, 1 / 2] Profile.ALL =
      .error (.valueError truthAmbiguousMessage) := by
    intro s
    have hC : Profile.ALL &&& Profile.CURVATURE ≠ 0 := by decide
    have hY : Profile.ALL &&& Profile.YAW ≠ 0 := by decide
    have hP : Profile.ALL &&& Profile.PATH ≠ 0 := by decide
    simp only [evalProfile, if_pos hC, if_pos hY, if_pos hP, List.map, npAnd, npTruthy]
  rw [create_cubic_path_2d_eq, hfit, hlast, hsteps]
  exact heval _

/-! Evaluation lemmas on the concrete witness inputs, with the external
primitives instantiated by `testPrims`. -/

lemma taxicab_nonneg : ∀ v : Vec2, 0 ≤ taxicab v :=
  fun _ => add_nonneg (abs_nonneg _) (abs_nonneg _)

lemma taxicab_eq_zero : ∀ v : Vec2, taxicab v = 0 ↔ v = (0, 0) := by
  intro v
  constructor
  · intro h
    obtain ⟨h1, h2⟩ :=
      (add_eq_zero_iff_of_nonneg (abs_nonneg v.1) (abs_nonneg v.2)).mp h
    exact Prod.ext (abs_eq_zero.mp h1) (abs_eq_zero.mp h2)
  · intro h
    rw [h]
    norm_num [taxicab]

lemma norms_twoPointLine : cumNorms testPrims.nrm twoPointLine = [0, 1] := by
  have hmap : (segDiffs twoPointLine).map testPrims.nrm = [1] := by
    norm_num [segDiffs, twoPointLine, testPrims, taxicab]
  show (0 : ℚ) :: cumsum ((segDiffs twoPointLine).map testPrims.nrm) = _
  rw [hmap]
  simp [cumsum, cumsumFrom]

lemma last_twoPointLine : (cumNorms testPrims.nrm twoPointLine).getLastD 0 = 1 := by
  rw [norms_twoPointLine]
  rfl

lemma fit_twoPointLine : cubicSplineFit testPrims.mkSpline "natural"
    (cumNorms testPrims.nrm twoPointLine) twoPointLine = .ok lineSpline := by
  have hcond : 2 ≤ twoPointLine.length ∧
      strictlyIncreasing (cumNorms testPrims.nrm twoPointLine) = true := by
    constructor
    · norm_num [twoPointLine]
    · rw [norms_twoPointLine]
      norm_num [strictlyIncreasing]
  unfold cubicSplineFit
  rw [if_pos hcond]
  rfl

lemma steps_half : npArange 0 1 (1 / 2) = [0, 1 / 2] := by
  have hc : Int.toNat ⌈((1 : ℚ) - 0) / (1 / 2)⌉ = 2 := by
    rw [show ⌈((1 : ℚ) - 0) / (1 / 2)⌉ = 2 from by norm_num]
    rfl
  simp only [npArange, hc]
  rw [show List.range 2 = [0, 1] from rfl]
  simp only [List.map]
  norm_num

lemma steps_two : npArange 0 1 2 = [0] := by
  have hc : Int.toNat ⌈((1 : ℚ) - 0) / 2⌉ = 1 := by
    rw [show ⌈((1 : ℚ) - 0) / 2⌉ = 1 from by rw [Int.ceil_eq_iff]; norm_num]
    rfl
  simp only [npArange, hc]
  rw [show List.range 1 = [0] from rfl]
  simp only [List.map]
  norm_num

lemma eval_curv_only : evalProfile testPrims lineSpline [0, 1 / 2] Profile.CURVATURE =
    .ok ⟨none, none, some [0, 0]⟩ := by
  have hC : Profile.CURVATURE &&& Profile.CURVATURE ≠ 0 := by decide
  have hY : ¬ Profile.CURVATURE &&& Profile.YAW ≠ 0 := by decide
  have hP : ¬ Profile.CURVATURE &&& Profile.PATH ≠ 0 := by decide
  simp only [evalProfile, if_pos hC, if_neg hY, if_neg hP, npAnd, npTruthy, List.map,
    lineSpline]
  norm_num [testPrims, List.zip, List.zipWith]

lemma eval_yaw_only : evalProfile testPrims lineSpline [0, 1 / 2] Profile.YAW =
    .ok ⟨none, some [0, 0], none⟩ := by
  have hC : ¬ Profile.YAW &&& Profile.CURVATURE ≠ 0 := by decide
  have hY : Profile.YAW &&& Profile.YAW ≠ 0 := by decide
  have hP : ¬ Profile.YAW &&& Profile.PATH ≠ 0 := by decide
  simp only [evalProfile, if_pos hY, if_neg hC, if_neg hP, List.map, lineSpline]
  norm_num [testPrims, List.zipWith]

lemma eval_all_single : evalProfile testPrims lineSpline [0] Profile.ALL =
    .ok ⟨some [(0, 0)], some [0], some [0]⟩ := by
  have hC : Profile.ALL &&& Profile.CURVATURE ≠ 0 := by decide
  have hY : Profile.ALL &&& Profile.YAW ≠ 0 := by decide
  have hP : Profile.ALL &&& Profile.PATH ≠ 0 := by decide
  have hd1 : decide ((1 : ℚ) ≠ 0) = true := by norm_num
  have hd0 : decide ((0 : ℚ) ≠ 0) = false := by norm_num
  simp only [evalProfile, if_pos hC, if_pos hY, if_pos hP, npAnd, npTruthy, List.map,
    lineSpline, hd1, hd0]
  norm_num [testPrims, List.zip, List.zipWith]

lemma cp2d_curv_only : create_cubic_path_2d testPrims twoPointLine Profile.CURVATURE
    (1 / 2) "natural" = .ok ⟨none, none, some [0, 0]⟩ := by
  rw [create_cubic_path_2d_eq, fit_twoPointLine]
  show evalProfile testPrims lineSpline
    (npArange 0 ((cumNorms testPrims.nrm twoPointLine).getLastD 0) (1 / 2))
    Profile.CURVATURE = _
  rw [last_twoPointLine, steps_half]
  exact eval_curv_only

lemma cp2d_yaw_only : create_cubic_path_2d testPrims twoPointLine Profile.YAW
    (1 / 2) "natural" = .ok ⟨none, some [0, 0], none⟩ := by
  rw [create_cubic_path_2d_eq, fit_twoPointLine]
  show evalProfile testPrims lineSpline
    (npArange 0 ((cumNorms testPrims.nrm twoPointLine).getLastD 0) (1 / 2))
    Profile.YAW = _
  rw [last_twoPointLine, steps_half]
  exact eval_yaw_only

lemma cp2d_all_single : create_cubic_path_2d testPrims twoPointLine Profile.ALL
    2 "natural" = .ok ⟨some [(0, 0)], some [0], some [0]⟩ := by
  rw [create_cubic_path_2d_eq, fit_twoPointLine]
  show evalProfile testPrims lineSpline
    (npArange 0 ((cumNorms testPrims.nrm twoPointLine).getLastD 0) 2)
    Profile.ALL = _
  rw [last_twoPointLine, steps_two]
  exact eval_all_single

lemma strict_testInput :
    strictlyIncreasing (cumNorms testPrims.nrm testInputPoints) = false := by
  have hmap : (segDiffs testInputPoints).map testPrims.nrm = [2, 0, 1] := by
    norm_num [segDiffs, testInputPoints, testPrims, taxicab]
  show strictlyIncreasing
    ((0 : ℚ) :: cumsum ((segDiffs testInputPoints).map testPrims.nrm)) = false
  rw [hmap]
  show strictlyIncreasing [0, 0 + 2, 0 + 2 + 0, 0 + 2 + 0 + 1] = false
  norm_num [strictlyIncreasing]

lemma cp2d_testInput : create_cubic_path_2d testPrims testInputPoints Profile.ALL
    (1 / 20) "natural" =
    .error (.consecutiveDuplicateError (.valueError splineFitErrorMessage)) := by
  have hfit : cubicSplineFit testPrims.mkSpline "natural"
      (cumNorms testPrims.nrm testInputPoints) testInputPoints =
      .error (.valueError splineFitErrorMessage) := by
    have hcond : ¬ (2 ≤ testInputPoints.length ∧
        strictlyIncreasing (cumNorms testPrims.nrm testInputPoints) = true) := by
      rw [strict_testInput]
      simp
    unfold cubicSplineFit
    rw [if_neg hcond]
  have hguard : duplicateGuard testInputPoints (.valueError splineFitErrorMessage) =
      .consecutiveDuplicateError (.valueError splineFitErrorMessage) := by
    have hall : (diffAxis1 testInputPoints).all (fun d => decide (d ≠ 0)) = false := by
      norm_num [diffAxis1, testInputPoints]
    simp only [duplicateGuard, hall, Bool.false_eq_true, if_false]
  rw [create_cubic_path_2d_eq, hfit]
  simp only [hguard]

/-! Witness theorems: each instantiates its claim's theorem at a concrete
input, discharging every hypothesis there. -/

/-- Witness for C1 at the taxicab instantiation of the norm primitive. -/
theorem c1_duplicate_guard_reraises_witness :
    hasConsecutiveDuplicate pointsDuplicateOffDiagonal = true ∧
    create_cubic_path_2d testPrims pointsDuplicateOffDiagonal Profile.ALL (1 / 20)
      "natural" = .error (.valueError splineFitErrorMessage) :=
  c1_duplicate_guard_reraises_on_duplicate testPrims (by norm_num [testPrims, taxicab])

/-- Witness for C2 at the taxicab instantiation of the norm primitive. -/
theorem c2_truthiness_crash_witness :
    create_cubic_path_2d testPrims twoPointLine Profile.ALL (1 / 2) "natural" =
      .error (.valueError truthAmbiguousMessage) :=
  c2_truthiness_crash_on_reuse testPrims (by norm_num [testPrims, taxicab])

/-- Witness for C3: profile ALL on the two-point line with one sample. -/
theorem c3_result_slots_match_profile_witness :
    (((⟨some [(0, 0)], some [0], some [0]⟩ : CubicPath2D).path ≠ none ↔
        Profile.ALL &&& Profile.PATH ≠ 0) ∧
      ((⟨some [(0, 0)], some [0], some [0]⟩ : CubicPath2D).yaw ≠ none ↔
        Profile.ALL &&& Profile.YAW ≠ 0) ∧
      ((⟨some [(0, 0)], some [0], some [0]⟩ : CubicPath2D).curvature ≠ none ↔
        Profile.ALL &&& Profile.CURVATURE ≠ 0)) ∧
    ((∀ l, (⟨some [(0, 0)], some [0], some [0]⟩ : CubicPath2D).path = some l →
        l.length =
          (npArange 0 ((cumNorms testPrims.nrm twoPointLine).getLastD 0) 2).length) ∧
      (∀ l, (⟨some [(0, 0)], some [0], some [0]⟩ : CubicPath2D).yaw = some l →
        l.length =
          (npArange 0 ((cumNorms testPrims.nrm twoPointLine).getLastD 0) 2).length) ∧
      (∀ l, (⟨some [(0, 0)], some [0], some [0]⟩ : CubicPath2D).curvature = some l →
        l.length =
          (npArange 0 ((cumNorms testPrims.nrm twoPointLine).getLastD 0) 2).length)) :=
  c3_result_slots_match_profile testPrims twoPointLine Profile.ALL 2 "natural"
    ⟨some [(0, 0)], some [0], some [0]⟩ cp2d_all_single

/-- Witness for C4 at total length 1 and step 1/3 (three samples). -/
theorem c4_sample_range_halfopen_witness :
    (∀ i : ℕ, i < (npArange 0 1 (1 / 3)).length ↔ (i : ℚ) * (1 / 3) < 1) ∧
    (∀ (i : ℕ) (h : i < (npArange 0 1 (1 / 3)).length),
      (npArange 0 1 (1 / 3)).get ⟨i, h⟩ = (i : ℚ) * (1 / 3)) ∧
    (∀ s ∈ npArange 0 1 (1 / 3), s < 1) ∧
    ((1 : ℚ) = 0 → npArange 0 1 (1 / 3) = []) :=
  c4_sample_range_halfopen 1 (1 / 3) (by norm_num)

/-- Witness for C5 on a three-point polyline with the taxicab norm. -/
theorem c5_arc_length_array_witness :
    (cumNorms taxicab threePointPath).length = threePointPath.length ∧
    (cumNorms taxicab threePointPath).getD 0 0 = 0 ∧
    (∀ i : ℕ, i + 1 < threePointPath.length →
      (cumNorms taxicab threePointPath).getD (i + 1) 0 =
        (cumNorms taxicab threePointPath).getD i 0 +
          taxicab ((threePointPath.getD (i + 1) (0, 0)).1 -
              (threePointPath.getD i (0, 0)).1,
            (threePointPath.getD (i + 1) (0, 0)).2 -
              (threePointPath.getD i (0, 0)).2)) ∧
    (List.Chain' (· < ·) (cumNorms taxicab threePointPath) ↔
      hasConsecutiveDuplicate threePointPath = false) :=
  c5_arc_length_array taxicab threePointPath (by simp [threePointPath]) taxicab_nonneg
    taxicab_eq_zero

/-- Witness for C6: curvature-only profile on the two-point line; the final
conjunct applies the colinear implication at the direction `(1, 0)`,
witnessing that its hypotheses are satisfiable. -/
theorem c6_curvature_formula_and_collinear_witness :
    ((([0, 0] : List ℚ) =
      (npArange 0 ((cumNorms testPrims.nrm twoPointLine).getLastD 0) (1 / 2)).map
        (curvatureSample testPrims
          (testPrims.mkSpline "natural" (cumNorms testPrims.nrm twoPointLine)
            twoPointLine)) ∧
      (∀ u : Vec2, SplineAlong (testPrims.mkSpline "natural"
            (cumNorms testPrims.nrm twoPointLine) twoPointLine) u →
        (∀ t : ℚ, (testPrims.mkSpline "natural" (cumNorms testPrims.nrm twoPointLine)
            twoPointLine).d1 t ≠ (0, 0)) →
        (∀ q : ℚ, 0 < q → testPrims.pow15 q ≠ 0) →
        ∀ x ∈ ([0, 0] : List ℚ), x = 0))) ∧
    (∀ x ∈ ([0, 0] : List ℚ), x = 0) := by
  have h := c6_curvature_formula_and_collinear testPrims twoPointLine Profile.CURVATURE
    (1 / 2) "natural" ⟨none, none, some [0, 0]⟩ [0, 0] cp2d_curv_only rfl
  refine ⟨h, ?_⟩
  refine h.2 (1, 0) ?_ ?_ ?_
  · intro t
    constructor
    · exact ⟨1, by norm_num [testPrims, lineSpline]⟩
    · exact ⟨0, by norm_num [testPrims, lineSpline]⟩
  · intro t
    norm_num [testPrims, lineSpline, Prod.ext_iff]
  · intro q hq
    simpa [testPrims] using ne_of_gt hq

/-- Witness for C7: yaw-only profile on the two-point line. -/
theorem c7_yaw_formula_and_range_witness :
    (([0, 0] : List ℚ) =
      (npArange 0 ((cumNorms testPrims.nrm twoPointLine).getLastD 0) (1 / 2)).map
        (fun t => testPrims.atan2
          ((testPrims.mkSpline "natural" (cumNorms testPrims.nrm twoPointLine)
            twoPointLine).d1 t).2
          ((testPrims.mkSpline "natural" (cumNorms testPrims.nrm twoPointLine)
            twoPointLine).d1 t).1)) ∧
    ∀ yv xv : ℝ, arctan2 yv xv ∈ Set.Ioc (-Real.pi) Real.pi :=
  c7_yaw_formula_and_range testPrims twoPointLine Profile.YAW (1 / 2) "natural"
    ⟨none, some [0, 0], none⟩ [0, 0] cp2d_yaw_only rfl

/-- Witness for C9 at the repository test's own input. -/
theorem c9_duplicate_error_identity_witness :
    ExcKind.excConsecutiveDuplicate.parent = some .excException ∧
    ExcKind.excConsecutiveDuplicate.isSubclassOf .excValueError = false ∧
    (PyErr.consecutiveDuplicateError (.valueError splineFitErrorMessage)).caughtBy
      .excException = true ∧
    (PyErr.consecutiveDuplicateError (.valueError splineFitErrorMessage)).caughtBy
      .excValueError = false ∧
    (PyErr.consecutiveDuplicateError (.valueError splineFitErrorMessage)).message =
      "Your input should not contain consecutive duplicate(s)!" ∧
    ∃ e, (PyErr.consecutiveDuplicateError (.valueError splineFitErrorMessage)).cause =
      some e ∧ e.kindOf = .excValueError ∧ e = .valueError splineFitErrorMessage :=
  c9_duplicate_error_identity testPrims testInputPoints Profile.ALL (1 / 20) "natural"
    (.consecutiveDuplicateError (.valueError splineFitErrorMessage)) cp2d_testInput rfl

end Scipath
